import Mathlib

/-!
Verification of the type-mapping and schema-derivation engine of the
wxd-Integration repository: a shallow embedding of
`wxd_migration/scripts/xml_parser.py` (class MasterXMLParser) and of the
row-separator normalization in `wxd_migration/scripts/archive_flow.py`
(method convert_to_parquet), with theorems settling the specification
claims about them.
-/

namespace WxdIntegration

mutual
/-- An element of the parsed XML document tree, mirroring the slice of
ElementTree the parser uses: a tag name, an attribute list, optional text
content and an ordered list of child elements.  The children are stored in
a companion list type so that recursion over the tree is structural. -/
inductive Elem : Type where
  | mk (tagName : String) (attrsList : List (String × String))
       (textVal : Option String) (childrenList : ElemList) : Elem

inductive ElemList : Type where
  | nil : ElemList
  | cons (e : Elem) (rest : ElemList) : ElemList
end

/-- Build an ElemList from a plain list, for writing concrete documents. -/
def elemsOf : List Elem → ElemList
  | [] => .nil
  | e :: rest => .cons e (elemsOf rest)

/-- Tag name of an element. -/
def Elem.tagOf : Elem → String
  | .mk t _ _ _ => t

/-- Attribute list of an element. -/
def Elem.attrsOf : Elem → List (String × String)
  | .mk _ a _ _ => a

/-- Text content of an element; `none` models ElementTree text None. -/
def Elem.textOf : Elem → Option String
  | .mk _ _ x _ => x

/-- The child list of an element, as a plain list. -/
def ElemList.toList : ElemList → List Elem
  | .nil => []
  | .cons e rest => e :: rest.toList

/-- The children of an element, in document order. -/
def Elem.children : Elem → List Elem
  | .mk _ _ _ cs => cs.toList

/-- Attribute lookup `elem.get(key)`, None when the attribute is absent. -/
def Elem.attr (e : Elem) (key : String) : Option String :=
  ((Elem.attrsOf e).find? (fun kv => kv.1 == key)).map (fun kv => kv.2)

/-- The `elem.find(tag)` lookup: first direct child with the tag, if any. -/
def Elem.find (e : Elem) (tag : String) : Option Elem :=
  (Elem.children e).find? (fun c => Elem.tagOf c == tag)

/-- The `elem.findall(tag)` lookup: direct children with the tag, in order. -/
def Elem.findall (e : Elem) (tag : String) : List Elem :=
  (Elem.children e).filter (fun c => Elem.tagOf c == tag)

mutual
/-- The `elem.findall(".//tag")` search: every descendant (the element
itself excluded) with the given tag, in document order, a parent before
its descendants. -/
def Elem.findallDeep (tag : String) : Elem → List Elem
  | .mk _ _ _ cs => ElemList.findallDeep tag cs

/-- Deep search over a forest of elements, in document order. -/
def ElemList.findallDeep (tag : String) : ElemList → List Elem
  | .nil => []
  | .cons c rest =>
      (if Elem.tagOf c == tag then [c] else [])
        ++ Elem.findallDeep tag c ++ ElemList.findallDeep tag rest
end

/-- The `root.find(".//tag")` lookup: first match of the deep search. -/
def Elem.findDeep (root : Elem) (tag : String) : Option Elem :=
  (Elem.findallDeep tag root).head?

/-- Python truthiness of the text of an optional element: the pattern
`x.text if x is not None and x.text else ...` takes the first branch
exactly when the element is present and its text is a non-empty string. -/
def truthyText (e : Option Elem) : Option String :=
  match e with
  | none => none
  | some el =>
      match Elem.textOf el with
      | none => none
      | some s => if s = "" then none else some s

/-- Python `str(x)` on an optional string: None prints as "None". -/
def pyStr : Option String → String
  | none => "None"
  | some s => s

/-- Python `s.upper()` restricted to ASCII letters, the only characters
the parsed type tokens contain. -/
def pyUpper (s : String) : String :=
  String.mk (s.data.map Char.toUpper)

/-- Python `s.lower()` restricted to ASCII letters. -/
def pyLower (s : String) : String :=
  String.mk (s.data.map Char.toLower)

/-- Python `s.endswith(suffix)`. -/
def pyEndsWith (s suffix : String) : Bool :=
  suffix.data.isSuffixOf s.data

/-- The whitespace characters Python `int` strips from its argument. -/
def isPySpace (c : Char) : Bool :=
  c == ' ' || c == '\t' || c == '\n' || c == '\r' || c == '\x0b' || c == '\x0c'

/-- Python `int(s)`: strip surrounding whitespace, accept an optional sign
followed by at least one digit; anything else raises, modelled as `none`. -/
def pyInt (s : String) : Option Int :=
  let t := ((s.data.dropWhile isPySpace).reverse.dropWhile isPySpace).reverse
  let signedCore : Bool × List Char :=
    match t with
    | '-' :: rest => (true, rest)
    | '+' :: rest => (false, rest)
    | _ => (false, t)
  let core := signedCore.2
  if (!core.isEmpty) && core.all (fun c => c.isDigit) then
    let n : Nat := core.foldl (fun acc c => 10 * acc + (c.toNat - 48)) 0
    some (if signedCore.1 then -(n : Int) else (n : Int))
  else
    none

/-- The only fatal condition of the parser core: the document is malformed,
here because a field declared integer-valued holds non-numeric text.  The
payload records the offending text. -/
inductive ParseError : Type where
  | malformedDocument (offending : String) : ParseError
deriving DecidableEq, Repr

/-- The Python pattern `int(x.text) if x is not None and x.text else 0`
used for the precision and scale children, where a non-numeric text makes
`int` raise. -/
def pyIntField (e : Option Elem) : Except ParseError Int :=
  match truthyText e with
  | some s =>
      match pyInt s with
      | some n => Except.ok n
      | none => Except.error (ParseError.malformedDocument s)
  | none => Except.ok 0

/-- Sequential fallible map: the Python `for ... append` loop in which an
exception raised for any item aborts the whole loop. -/
def collectE {α β : Type} (f : α → Except ParseError β) :
    List α → Except ParseError (List β)
  | [] => Except.ok []
  | x :: xs => do
      let y ← f x
      let ys ← collectE f xs
      return y :: ys

/-- The type-mapping dictionary of `MasterXMLParser.map_data_type`, built
with the precision and scale interpolated into the value strings. -/
def type_mapping (precision scale : Int) : List (String × String) :=
    [ ("DECIMAL",
        if scale > 0 then
          "DECIMAL(" ++ toString precision ++ "," ++ toString scale ++ ")"
        else
          "DECIMAL(" ++ toString precision ++ ")"),
      ("VARCHAR", "VARCHAR(" ++ toString precision ++ ")"),
      ("WVARCHAR", "VARCHAR(" ++ toString precision ++ ")"),
      ("CHAR", "CHAR(" ++ toString precision ++ ")"),
      ("WCHAR", "CHAR(" ++ toString precision ++ ")"),
      ("INT", "INTEGER"),
      ("INTEGER", "INTEGER"),
      ("SMALLINT", "SMALLINT"),
      ("BIGINT", "BIGINT"),
      ("FLOAT", "REAL"),
      ("DOUBLE", "DOUBLE"),
      ("REAL", "REAL"),
      ("TIMESTAMP", "TIMESTAMP"),
      ("DATE", "DATE"),
      ("TIME", "TIME"),
      ("BOOLEAN", "BOOLEAN"),
      ("BLOB", "VARBINARY"),
      ("CLOB", "VARCHAR(65535)") ]

/-- The lookup of `MasterXMLParser.map_data_type`: the key is the
upper-cased original type, and a missed lookup falls back to
VARCHAR(255). -/
def map_data_type (original_type : String) (precision scale : Int) : String :=
  let base_type := pyUpper original_type
  ((((type_mapping precision scale).find? (fun kv => kv.1 == base_type)).map
      (fun kv => kv.2)).getD "VARCHAR(255)")

/-- The keys of the type-mapping table, for stating the fallback rule. -/
def typeMappingKeys : List String :=
  [ "DECIMAL", "VARCHAR", "WVARCHAR", "CHAR", "WCHAR", "INT", "INTEGER",
    "SMALLINT", "BIGINT", "FLOAT", "DOUBLE", "REAL", "TIMESTAMP", "DATE",
    "TIME", "BOOLEAN", "BLOB", "CLOB" ]

/-- One parsed column, mirroring the column_def dictionary built in
`MasterXMLParser.parse_table`. -/
structure ColumnDef : Type where
  name : String
  type : String
  precision : Int
  scale : Int
  nullable : Bool
  wxd_type : String
  notes : Option String
deriving DecidableEq, Repr

/-- Extraction of one column node, lines 80 to 110 of xml_parser.py: name
attribute with empty-string default; type defaulting to VARCHAR when the
child is absent or its text empty; precision and scale through Python
`int` with default 0; nullable true exactly when the text equals "1", with
default true when the child is absent or its text empty; the mapped target
type; and the advisory note for wide-character types. -/
def parseColumn (col : Elem) : Except ParseError ColumnDef := do
  let col_name := (Elem.attr col "NAME").getD ""
  let col_type := (truthyText (Elem.find col "TYPE")).getD "VARCHAR"
  let precision ← pyIntField (Elem.find col "PRECISION")
  let scale ← pyIntField (Elem.find col "SCALE")
  let nullable :=
    match truthyText (Elem.find col "NULLABLE") with
    | some s => s == "1"
    | none => true
  let wxd_type := map_data_type col_type precision scale
  let notes :=
    if col_type != "" &&
        (pyUpper col_type == "WVARCHAR" || pyUpper col_type == "WCHAR") then
      some ("Wide character " ++ col_type ++ " mapped to standard type")
    else
      none
  return { name := col_name, type := col_type, precision := precision,
           scale := scale, nullable := nullable, wxd_type := wxd_type,
           notes := notes }

/-- The source block of a table definition; fields that Python may leave
as None are Options. -/
structure SourceSpec : Type where
  type : String
  file_path : Option String
  sct_path : Option String
  format : String
  column_separator : Option String
  row_separator : Option String
  null_indicator : Option String
deriving DecidableEq, Repr

/-- The target block of a table definition. -/
structure TargetSpec : Type where
  catalog : String
  schema : String
  table : String
  format : String
deriving DecidableEq, Repr

/-- The metadata block of a table definition. -/
structure TableMetadata : Type where
  keep_data : Bool
  original_source : String
  migration_date : String
deriving DecidableEq, Repr

/-- One parsed table, mirroring the table_def dictionary built in
`MasterXMLParser.parse_table`. -/
structure TableDef : Type where
  asset_id : String
  name : Option String
  database : Option String
  schema : Option String
  description : String
  source : SourceSpec
  target : TargetSpec
  columns : List ColumnDef
  metadata : TableMetadata
deriving DecidableEq, Repr

/-- The Python conditional `x.lower() if x else "unknown"` applied to the
three identifying attributes: None and the empty string are falsy. -/
def lowerOrUnknown (o : Option String) : String :=
  match o with
  | some s => if s = "" then "unknown" else pyLower s
  | none => "unknown"

/-- File-format inference, lines 112 to 119 of xml_parser.py, applied to
the truthy text of the FILE_PATH child. -/
def inferFormat (txt : Option String) : String :=
  match txt with
  | some s =>
      let path_lower := pyLower s
      if pyEndsWith path_lower ".txt" then "delimited"
      else if pyEndsWith path_lower ".bcp" then "bcp"
      else "csv"
  | none => "csv"

/-- The Python pattern `x.text if x is not None else d` used for the five
source-spec override children: a present element contributes its text even
when that text is None; the default applies only to an absent element. -/
def textOrDefault (o : Option Elem) (d : String) : Option String :=
  match o with
  | some e => Elem.textOf e
  | none => some d

/-- `MasterXMLParser.parse_table`: parse one TABLE element into a table
definition.  Only the integer fields of the columns can fail; every other
absence takes a documented default. -/
def parse_table (t : Elem) : Except ParseError TableDef := do
  let table_name := Elem.attr t "NAME"
  let database := Elem.attr t "DATABASE"
  let schema := Elem.attr t "SCHEMA"
  let keep_data := Elem.find t "KEEP_DATA"
  let col_sep := Elem.find t "COLUMN_SEPARATOR"
  let row_sep := Elem.find t "ROW_SEPARATOR"
  let null_ind := Elem.find t "NULL_INDICATOR"
  let file_path := Elem.find t "FILE_PATH"
  let sct_path := Elem.find t "SCT_PATH"
  let columns ←
    match Elem.find t "COLUMNS" with
    | some columns_elem => collectE parseColumn (Elem.findall columns_elem "COLUMN")
    | none => Except.ok []
  let file_format := inferFormat (truthyText file_path)
  let db_safe := lowerOrUnknown database
  let schema_safe := lowerOrUnknown schema
  let table_safe := lowerOrUnknown table_name
  let asset_id := db_safe ++ "_" ++ schema_safe ++ "_" ++ table_safe
  return { asset_id := asset_id,
           name := table_name,
           database := database,
           schema := schema,
           description := "Archive table " ++ pyStr table_name ++ " from "
             ++ pyStr database ++ "." ++ pyStr schema,
           source := { type := "file",
                       file_path := textOrDefault file_path "",
                       sct_path := textOrDefault sct_path "",
                       format := file_format,
                       column_separator := textOrDefault col_sep ",",
                       row_separator := textOrDefault row_sep "\\n",
                       null_indicator := textOrDefault null_ind "NULL" },
           target := { catalog := "iceberg_data",
                       schema := "archive_data",
                       table := asset_id,
                       format := "parquet" },
           columns := columns,
           metadata := { keep_data :=
                           match keep_data with
                           | some e => Elem.textOf e == some "1"
                           | none => true,
                         original_source := "master.xml",
                         migration_date := "2026-02-19" } }

/-- `MasterXMLParser.parse_all_tables`: find the first TABLES container
anywhere in the tree and parse each of its TABLE children in document
order; any raised condition propagates and no partial list is returned. -/
def parse_all_tables (root : Elem) : Except ParseError (List TableDef) :=
  match Elem.findDeep root "TABLES" with
  | some tables_elem => collectE parse_table (Elem.findall tables_elem "TABLE")
  | none => Except.ok []

/-- Python `s.replace(two-char backslash-n, linefeed)` on character lists:
the left-to-right, non-overlapping scan that replaces every occurrence of
the two-character sequence backslash n by a single line feed. -/
def pyReplaceBN : List Char → List Char
  | [] => []
  | [c] => [c]
  | c1 :: c2 :: rest =>
      if c1 = '\\' ∧ c2 = 'n' then '\n' :: pyReplaceBN rest
      else c1 :: pyReplaceBN (c2 :: rest)

/-- Whether a character list contains the two-character sequence
backslash n, the pattern the row-separator normalization replaces. -/
def containsBN : List Char → Bool
  | [] => false
  | [_] => false
  | c1 :: c2 :: rest => (c1 == '\\' && c2 == 'n') || containsBN (c2 :: rest)

/-- Row-separator normalization in ArchiveFlowOrchestrator.convert_to_parquet:
the expression `source.get("row_separator", ...).replace("\x5cn", "\n")`
applied to the row-separator string. -/
def normalize_row_sep (s : String) : String :=
  String.mk (pyReplaceBN s.data)

/-- The keys of the type-mapping dictionary do not depend on the precision
and scale interpolated into its values. -/
theorem type_mapping_keys_eq (p s : Int) :
    (type_mapping p s).map Prod.fst = typeMappingKeys := rfl

/-- A truthy text is never the empty string. -/
theorem truthyText_ne_empty {e : Option Elem} {s : String}
    (h : truthyText e = some s) : s ≠ "" := by
  unfold truthyText at h
  cases e with
  | none => simp at h
  | some el =>
      cases hx : Elem.textOf el with
      | none => simp [hx] at h
      | some x =>
          simp only [hx] at h
          split at h
          · simp at h
          · simp_all

/-- If a truthy text holds a string that Python int rejects, the integer
field extraction raises. -/
theorem pyIntField_error {e : Option Elem} {s : String}
    (h : truthyText e = some s) (hbad : pyInt s = none) :
    pyIntField e = Except.error (ParseError.malformedDocument s) := by
  simp [pyIntField, h, hbad]

/-- An element found absent makes the integer field extraction default. -/
theorem pyIntField_none : pyIntField none = Except.ok 0 := rfl

/-- Binding a raised condition propagates it. -/
theorem bindE_error {α β : Type} (e : ParseError)
    (f : α → Except ParseError β) :
    Except.bind (Except.error e) f = Except.error e := rfl

/-- Binding a successful result applies the continuation. -/
theorem bindE_ok {α β : Type} (a : α) (f : α → Except ParseError β) :
    Except.bind (Except.ok a) f = f a := rfl

/-- Unfolding of the fallible map on a cons cell. -/
theorem collectE_cons {α β : Type} (f : α → Except ParseError β)
    (a : α) (as : List α) :
    collectE f (a :: as) =
      Except.bind (f a) (fun y =>
        Except.bind (collectE f as) (fun ys => Except.ok (y :: ys))) := rfl

/-- If the fallible map hits one failing item, the whole map fails. -/
theorem collectE_error_of_mem {α β : Type} (f : α → Except ParseError β)
    {l : List α} {x : α} (hx : x ∈ l) {e : ParseError}
    (hfx : f x = Except.error e) :
    ∃ e2, collectE f l = Except.error e2 := by
  induction l with
  | nil => cases hx
  | cons a as ih =>
      cases hfa : f a with
      | error e3 => exact ⟨e3, by rw [collectE_cons, hfa, bindE_error]⟩
      | ok b =>
          rcases List.mem_cons.mp hx with rfl | hmem
          · rw [hfa] at hfx; cases hfx
          · obtain ⟨e2, hcoll⟩ := ih hmem
            exact ⟨e2, by rw [collectE_cons, hfa, bindE_ok, hcoll, bindE_error]⟩

/-- A successful fallible map is index-wise the image of the input list:
same length, and the item at every index maps to the output at the same
index. -/
theorem collectE_ok_spec {α β : Type} (f : α → Except ParseError β) :
    ∀ (l : List α) (ys : List β), collectE f l = Except.ok ys →
      ys.length = l.length ∧
      ∀ (i : Nat) (h1 : i < l.length) (h2 : i < ys.length),
        f (l.get ⟨i, h1⟩) = Except.ok (ys.get ⟨i, h2⟩) := by
  intro l
  induction l with
  | nil =>
      intro ys h
      simp only [collectE] at h
      cases h
      exact ⟨rfl, by intro i h1 _; cases h1⟩
  | cons a as ih =>
      intro ys h
      rw [collectE_cons] at h
      cases hfa : f a with
      | error e => rw [hfa, bindE_error] at h; cases h
      | ok b =>
          rw [hfa, bindE_ok] at h
          cases hrest : collectE f as with
          | error e => rw [hrest, bindE_error] at h; cases h
          | ok bs =>
              rw [hrest, bindE_ok] at h
              have hys : ys = b :: bs := by
                cases h; rfl
              subst hys
              obtain ⟨hlen, hget⟩ := ih bs hrest
              refine ⟨by simp [hlen], ?_⟩
              intro i h1 h2
              cases i with
              | zero => simpa using hfa
              | succ j =>
                  simpa using hget j (by simpa using h1) (by simpa using h2)

/-- The column definition built by parseColumn once the two integer
fields are known, with every let inlined. -/
def columnRecord (col : Elem) (precision scale : Int) : ColumnDef :=
  { name := (Elem.attr col "NAME").getD "",
    type := (truthyText (Elem.find col "TYPE")).getD "VARCHAR",
    precision := precision,
    scale := scale,
    nullable :=
      match truthyText (Elem.find col "NULLABLE") with
      | some s => s == "1"
      | none => true,
    wxd_type :=
      map_data_type ((truthyText (Elem.find col "TYPE")).getD "VARCHAR")
        precision scale,
    notes :=
      if ((truthyText (Elem.find col "TYPE")).getD "VARCHAR") != "" &&
          (pyUpper ((truthyText (Elem.find col "TYPE")).getD "VARCHAR") == "WVARCHAR" ||
           pyUpper ((truthyText (Elem.find col "TYPE")).getD "VARCHAR") == "WCHAR") then
        some ("Wide character "
          ++ ((truthyText (Elem.find col "TYPE")).getD "VARCHAR")
          ++ " mapped to standard type")
      else none }

/-- Unfolding of parseColumn as a bind chain over the two integer fields
ending in the inlined column record. -/
theorem parseColumn_eq (col : Elem) :
    parseColumn col =
      Except.bind (pyIntField (Elem.find col "PRECISION")) (fun precision =>
        Except.bind (pyIntField (Elem.find col "SCALE")) (fun scale =>
          Except.ok (columnRecord col precision scale))) := rfl

/-- The columns of one table: empty when the COLUMNS container is absent,
otherwise the fallible map of parseColumn over its COLUMN children. -/
def tableColumnsE (t : Elem) : Except ParseError (List ColumnDef) :=
  match Elem.find t "COLUMNS" with
  | some columns_elem => collectE parseColumn (Elem.findall columns_elem "COLUMN")
  | none => Except.ok []

/-- The table definition built by parse_table once the column list is
known, with every let inlined. -/
def tableRecord (t : Elem) (columns : List ColumnDef) : TableDef :=
  { asset_id := lowerOrUnknown (Elem.attr t "DATABASE") ++ "_"
      ++ lowerOrUnknown (Elem.attr t "SCHEMA") ++ "_"
      ++ lowerOrUnknown (Elem.attr t "NAME"),
    name := Elem.attr t "NAME",
    database := Elem.attr t "DATABASE",
    schema := Elem.attr t "SCHEMA",
    description := "Archive table " ++ pyStr (Elem.attr t "NAME") ++ " from "
      ++ pyStr (Elem.attr t "DATABASE") ++ "." ++ pyStr (Elem.attr t "SCHEMA"),
    source := { type := "file",
                file_path := textOrDefault (Elem.find t "FILE_PATH") "",
                sct_path := textOrDefault (Elem.find t "SCT_PATH") "",
                format := inferFormat (truthyText (Elem.find t "FILE_PATH")),
                column_separator := textOrDefault (Elem.find t "COLUMN_SEPARATOR") ",",
                row_separator := textOrDefault (Elem.find t "ROW_SEPARATOR") "\\n",
                null_indicator := textOrDefault (Elem.find t "NULL_INDICATOR") "NULL" },
    target := { catalog := "iceberg_data",
                schema := "archive_data",
                table := lowerOrUnknown (Elem.attr t "DATABASE") ++ "_"
                  ++ lowerOrUnknown (Elem.attr t "SCHEMA") ++ "_"
                  ++ lowerOrUnknown (Elem.attr t "NAME"),
                format := "parquet" },
    columns := columns,
    metadata := { keep_data :=
                    match Elem.find t "KEEP_DATA" with
                    | some e => Elem.textOf e == some "1"
                    | none => true,
                  original_source := "master.xml",
                  migration_date := "2026-02-19" } }

/-- Unfolding of parse_table as a bind over the column extraction ending
in the inlined table record. -/
theorem parse_table_eq (t : Elem) :
    parse_table t =
      Except.bind (tableColumnsE t) (fun columns =>
        Except.ok (tableRecord t columns)) := by
  unfold parse_table tableColumnsE
  cases hfind : Elem.find t "COLUMNS" with
  | none => rfl
  | some ce => rfl

/-- Inversion of a successful parse_table: the column extraction succeeded
with exactly the columns stored in the result, and the result is the
inlined table record over them. -/
theorem parse_table_ok_inv {t : Elem} {td : TableDef}
    (h : parse_table t = Except.ok td) :
    ∃ cols, tableColumnsE t = Except.ok cols ∧ td = tableRecord t cols := by
  rw [parse_table_eq] at h
  cases hc : tableColumnsE t with
  | error e => rw [hc, bindE_error] at h; cases h
  | ok cols =>
      rw [hc, bindE_ok] at h
      cases h
      exact ⟨cols, rfl, rfl⟩

/-- Inversion of a successful parseColumn: both integer fields succeeded
and the result is the inlined column record over them. -/
theorem parseColumn_ok_inv {col : Elem} {cd : ColumnDef}
    (h : parseColumn col = Except.ok cd) :
    ∃ p s, pyIntField (Elem.find col "PRECISION") = Except.ok p ∧
      pyIntField (Elem.find col "SCALE") = Except.ok s ∧
      cd = columnRecord col p s := by
  rw [parseColumn_eq] at h
  cases hp : pyIntField (Elem.find col "PRECISION") with
  | error e => rw [hp, bindE_error] at h; cases h
  | ok p =>
      rw [hp, bindE_ok] at h
      cases hs : pyIntField (Elem.find col "SCALE") with
      | error e => rw [hs, bindE_error] at h; cases h
      | ok s =>
          rw [hs, bindE_ok] at h
          cases h
          exact ⟨p, s, rfl, rfl, rfl⟩

/-- Unfolding of parse_all_tables when the TABLES container is found. -/
theorem parse_all_tables_eq_of_found {root te : Elem}
    (hte : Elem.findDeep root "TABLES" = some te) :
    parse_all_tables root = collectE parse_table (Elem.findall te "TABLE") := by
  unfold parse_all_tables
  rw [hte]

/-- Replacement leaves a head that is not a backslash in place. -/
theorem pyReplaceBN_cons_ne {c : Char} (hc : c ≠ '\\') (xs : List Char) :
    pyReplaceBN (c :: xs) = c :: pyReplaceBN xs := by
  cases xs with
  | nil => rfl
  | cons c2 rest => simp [pyReplaceBN, hc]

/-- Replacement leaves a backslash head in place when the next character
is not the letter n. -/
theorem pyReplaceBN_cons_bs {xs : List Char} (hx : xs.head? ≠ some 'n') :
    pyReplaceBN ('\\' :: xs) = '\\' :: pyReplaceBN xs := by
  cases xs with
  | nil => rfl
  | cons c2 rest =>
      have hc2 : c2 ≠ 'n' := by simpa using hx
      simp [pyReplaceBN, hc2]

/-- Replacement of a matched pair puts a line feed and continues after
the pair. -/
theorem pyReplaceBN_cons_pair (rest : List Char) :
    pyReplaceBN ('\\' :: 'n' :: rest) = '\n' :: pyReplaceBN rest := by
  simp [pyReplaceBN]

/-- Replacement never turns a head that is not the letter n into the
letter n. -/
theorem pyReplaceBN_head_ne {l : List Char} (h : l.head? ≠ some 'n') :
    (pyReplaceBN l).head? ≠ some 'n' := by
  match l with
  | [] => simp [pyReplaceBN]
  | [c] => simpa [pyReplaceBN] using h
  | c1 :: c2 :: rest =>
      by_cases hc : c1 = '\\' ∧ c2 = 'n'
      · simp [pyReplaceBN, hc]
      · simp only [pyReplaceBN, if_neg hc]
        simpa using h

/-- Replacing twice equals replacing once. -/
theorem pyReplaceBN_idem (l : List Char) :
    pyReplaceBN (pyReplaceBN l) = pyReplaceBN l := by
  induction l using pyReplaceBN.induct with
  | case1 => rfl
  | case2 c => rfl
  | case3 c1 c2 rest hc ih =>
      obtain ⟨rfl, rfl⟩ := hc
      rw [pyReplaceBN_cons_pair, pyReplaceBN_cons_ne (by decide), ih]
  | case4 c1 c2 rest hc ih =>
      have hstep : pyReplaceBN (c1 :: c2 :: rest) = c1 :: pyReplaceBN (c2 :: rest) := by
        simp [pyReplaceBN, if_neg hc]
      rw [hstep]
      by_cases hc1 : c1 = '\\'
      · subst hc1
        have hc2 : c2 ≠ 'n' := by
          intro h2
          exact hc ⟨rfl, h2⟩
        have hhead : (pyReplaceBN (c2 :: rest)).head? ≠ some 'n' :=
          pyReplaceBN_head_ne (by simpa using hc2)
        rw [pyReplaceBN_cons_bs hhead, ih]
      · rw [pyReplaceBN_cons_ne hc1, ih]

/-- A list without the two-character pattern is left unchanged. -/
theorem pyReplaceBN_of_not_contains {l : List Char}
    (h : containsBN l = false) : pyReplaceBN l = l := by
  induction l using pyReplaceBN.induct with
  | case1 => rfl
  | case2 c => rfl
  | case3 c1 c2 rest hc ih =>
      obtain ⟨rfl, rfl⟩ := hc
      simp [containsBN] at h
  | case4 c1 c2 rest hc ih =>
      have hrest : containsBN (c2 :: rest) = false := by
        simp only [containsBN, Bool.or_eq_false_iff] at h
        exact h.2
      rw [show pyReplaceBN (c1 :: c2 :: rest) = c1 :: pyReplaceBN (c2 :: rest) from by
            simp [pyReplaceBN, if_neg hc],
          ih hrest]

/-- C4 counterexample input: a row separator holding the two-character
sequence between other characters. -/
def c4Input : String := "|\\n|"

/-- C4: the claim states that row-separator normalization maps only the
exact two-character string backslash-n to a line feed and leaves every
other input unchanged; the code replaces every occurrence instead, so an
input that merely contains the sequence is changed. -/
theorem row_sep_exact_match_cex :
    c4Input ≠ "\\n" ∧ normalize_row_sep c4Input ≠ c4Input ∧
      normalize_row_sep c4Input = "|\n|" := by
  refine ⟨by decide, by decide, by decide⟩

/-- C4 as amended: normalization replaces every left-to-right,
non-overlapping occurrence of the two-character sequence backslash-n by a
single line feed; in particular the exact two-character input becomes a
single line feed, an input containing no occurrence of the sequence passes
through unchanged, and normalizing twice equals normalizing once. -/
theorem row_sep_replace_all_occurrences :
    normalize_row_sep "\\n" = "\n"
    ∧ (∀ s : String, containsBN s.data = false → normalize_row_sep s = s)
    ∧ (∀ s : String, normalize_row_sep (normalize_row_sep s) = normalize_row_sep s) := by
  refine ⟨by decide, ?_, ?_⟩
  · intro s h
    unfold normalize_row_sep
    rw [pyReplaceBN_of_not_contains h]
  · intro s
    unfold normalize_row_sep
    rw [show (String.mk (pyReplaceBN s.data)).data = pyReplaceBN s.data from rfl,
        pyReplaceBN_idem]

/-- C4 witness: the amended theorem applied to concrete separators. -/
theorem row_sep_replace_all_occurrences_witness :
    normalize_row_sep "," = "," ∧
      normalize_row_sep (normalize_row_sep "x\\ny") = normalize_row_sep "x\\ny" :=
  ⟨row_sep_replace_all_occurrences.2.1 "," (by decide),
   row_sep_replace_all_occurrences.2.2 "x\\ny"⟩

/-- The default column type with an absent or blank TYPE child is never
the empty string. -/
theorem colTypeDefault_ne_empty (e : Option Elem) :
    ((truthyText e).getD "VARCHAR") ≠ "" := by
  cases ht : truthyText e with
  | none => simp
  | some s => simpa using truthyText_ne_empty ht

/-- C1: mapType upper-cases the original type and returns exactly the
target type of the fixed lookup table — DECIMAL with positive scale gives
DECIMAL(p,s) and otherwise DECIMAL(p); VARCHAR and WVARCHAR give
VARCHAR(p); CHAR and WCHAR give CHAR(p); CLOB gives VARCHAR(65535); BLOB
gives VARBINARY; a token whose upper-casing is not a key of the table
gives VARCHAR(255) — and a parsed column whose type upper-cases to
WVARCHAR or WCHAR carries an advisory note. -/
theorem mapType_fixed_lookup_table :
    (∀ (ty : String) (p s : Int), pyUpper ty = "DECIMAL" → 0 < s →
        map_data_type ty p s = "DECIMAL(" ++ toString p ++ "," ++ toString s ++ ")")
    ∧ (∀ (ty : String) (p s : Int), pyUpper ty = "DECIMAL" → ¬ 0 < s →
        map_data_type ty p s = "DECIMAL(" ++ toString p ++ ")")
    ∧ (∀ (ty : String) (p s : Int), pyUpper ty = "VARCHAR" ∨ pyUpper ty = "WVARCHAR" →
        map_data_type ty p s = "VARCHAR(" ++ toString p ++ ")")
    ∧ (∀ (ty : String) (p s : Int), pyUpper ty = "CHAR" ∨ pyUpper ty = "WCHAR" →
        map_data_type ty p s = "CHAR(" ++ toString p ++ ")")
    ∧ (∀ (ty : String) (p s : Int), pyUpper ty = "CLOB" →
        map_data_type ty p s = "VARCHAR(65535)")
    ∧ (∀ (ty : String) (p s : Int), pyUpper ty = "BLOB" →
        map_data_type ty p s = "VARBINARY")
    ∧ (∀ (ty : String) (p s : Int), pyUpper ty ∉ typeMappingKeys →
        map_data_type ty p s = "VARCHAR(255)")
    ∧ (∀ (col : Elem) (cd : ColumnDef), parseColumn col = Except.ok cd →
        pyUpper cd.type = "WVARCHAR" ∨ pyUpper cd.type = "WCHAR" →
        cd.notes.isSome = true) := by
  refine ⟨?_, ?_, ?_, ?_, ?_, ?_, ?_, ?_⟩
  · intro ty p s h hpos
    simp only [map_data_type, h]
    rw [show (type_mapping p s).find? (fun kv => kv.1 == "DECIMAL") =
          some ("DECIMAL",
            if s > 0 then "DECIMAL(" ++ toString p ++ "," ++ toString s ++ ")"
            else "DECIMAL(" ++ toString p ++ ")") from rfl]
    simp [hpos]
  · intro ty p s h hpos
    simp only [map_data_type, h]
    rw [show (type_mapping p s).find? (fun kv => kv.1 == "DECIMAL") =
          some ("DECIMAL",
            if s > 0 then "DECIMAL(" ++ toString p ++ "," ++ toString s ++ ")"
            else "DECIMAL(" ++ toString p ++ ")") from rfl]
    simp [hpos]
  · rintro ty p s (h | h) <;> simp only [map_data_type, h] <;> rfl
  · rintro ty p s (h | h) <;> simp only [map_data_type, h] <;> rfl
  · intro ty p s h
    simp only [map_data_type, h]
    rfl
  · intro ty p s h
    simp only [map_data_type, h]
    rfl
  · intro ty p s h
    have hf : (type_mapping p s).find? (fun kv => kv.1 == pyUpper ty) = none := by
      rw [List.find?_eq_none]
      intro kv hkv
      simp only [beq_iff_eq]
      intro heq
      apply h
      have hmem : kv.1 ∈ (type_mapping p s).map Prod.fst :=
        List.mem_map_of_mem Prod.fst hkv
      rw [type_mapping_keys_eq] at hmem
      rwa [heq] at hmem
    simp [map_data_type, hf]
  · intro col cd h hw
    obtain ⟨p, s, hp, hs, rfl⟩ := parseColumn_ok_inv h
    simp only [columnRecord] at hw ⊢
    have hne := colTypeDefault_ne_empty (Elem.find col "TYPE")
    rcases hw with h1 | h1 <;> simp [h1, hne]

/-- A concrete column node with a lower-case wide-character type. -/
def c1NoteCol : Elem :=
  Elem.mk "COLUMN" [("NAME", "W")] none
    (elemsOf [Elem.mk "TYPE" [] (some "wchar") ElemList.nil])

/-- The column definition the parser derives for c1NoteCol. -/
def c1NoteCd : ColumnDef :=
  { name := "W", type := "wchar", precision := 0, scale := 0,
    nullable := true, wxd_type := "CHAR(0)",
    notes := some "Wide character wchar mapped to standard type" }

/-- C1 witness: the lookup-table theorem applied at the concrete inputs
the specification lists, and the advisory note on a concrete wide
character column. -/
theorem mapType_fixed_lookup_table_witness :
    map_data_type "DECIMAL" 10 2 = "DECIMAL(10,2)"
    ∧ map_data_type "DECIMAL" 10 0 = "DECIMAL(10)"
    ∧ map_data_type "varchar" 50 0 = "VARCHAR(50)"
    ∧ map_data_type "WVarChar" 7 1 = "VARCHAR(7)"
    ∧ map_data_type "WCHAR" 10 0 = "CHAR(10)"
    ∧ map_data_type "Clob" 1 1 = "VARCHAR(65535)"
    ∧ map_data_type "blob" 2 3 = "VARBINARY"
    ∧ map_data_type "UNKNOWNTYPE" 0 0 = "VARCHAR(255)"
    ∧ c1NoteCd.notes.isSome = true :=
  ⟨(mapType_fixed_lookup_table.1 "DECIMAL" 10 2 (by decide) (by decide)).trans
      (by decide),
   (mapType_fixed_lookup_table.2.1 "DECIMAL" 10 0 (by decide) (by decide)).trans
      (by decide),
   (mapType_fixed_lookup_table.2.2.1 "varchar" 50 0 (Or.inl (by decide))).trans
      (by decide),
   (mapType_fixed_lookup_table.2.2.1 "WVarChar" 7 1 (Or.inr (by decide))).trans
      (by decide),
   (mapType_fixed_lookup_table.2.2.2.1 "WCHAR" 10 0 (Or.inr (by decide))).trans
      (by decide),
   mapType_fixed_lookup_table.2.2.2.2.1 "Clob" 1 1 (by decide),
   mapType_fixed_lookup_table.2.2.2.2.2.1 "blob" 2 3 (by decide),
   mapType_fixed_lookup_table.2.2.2.2.2.2.1 "UNKNOWNTYPE" 0 0 (by decide),
   mapType_fixed_lookup_table.2.2.2.2.2.2.2 c1NoteCol c1NoteCd rfl
     (Or.inr (by decide))⟩

/-- The assetId component rule exactly as claim C2 words it: only an
absent component becomes the token unknown, and a present component is
lower-cased as is. -/
def claimedAssetPart : Option String → String
  | none => "unknown"
  | some s => pyLower s

/-- The assetId component rule as amended: a component that is absent or
empty becomes the token unknown, and any other component is lower-cased. -/
def amendedAssetPart : Option String → String
  | none => "unknown"
  | some s => if s = "" then "unknown" else pyLower s

/-- The code conditional and the amended component rule agree. -/
theorem lowerOrUnknown_eq_amended (o : Option String) :
    lowerOrUnknown o = amendedAssetPart o := by
  cases o <;> rfl

/-- A concrete table node whose DATABASE attribute is present but empty. -/
def c2EmptyDbTable : Elem :=
  Elem.mk "TABLE" [("DATABASE", ""), ("SCHEMA", "Schema1"), ("NAME", "TAB1")]
    none ElemList.nil

/-- C2 counterexample: with a present-but-empty DATABASE attribute the
code derives unknown_schema1_tab1, while the claimed rule, which replaces
only absent components, would derive _schema1_tab1. -/
theorem assetId_absent_only_cex :
    (parse_table c2EmptyDbTable).map TableDef.asset_id =
        Except.ok "unknown_schema1_tab1"
    ∧ Elem.attr c2EmptyDbTable "DATABASE" = some ""
    ∧ claimedAssetPart (Elem.attr c2EmptyDbTable "DATABASE") ++ "_"
        ++ claimedAssetPart (Elem.attr c2EmptyDbTable "SCHEMA") ++ "_"
        ++ claimedAssetPart (Elem.attr c2EmptyDbTable "NAME") = "_schema1_tab1"
    ∧ ("unknown_schema1_tab1" : String) ≠ "_schema1_tab1" :=
  ⟨rfl, rfl, rfl, by decide⟩

/-- A concrete table node with all three identifying attributes. -/
def c2FullTable : Elem :=
  Elem.mk "TABLE" [("DATABASE", "DB1"), ("SCHEMA", "Schema1"), ("NAME", "TAB1")]
    none ElemList.nil

/-- A concrete table node without a DATABASE attribute. -/
def c2NoDbTable : Elem :=
  Elem.mk "TABLE" [("SCHEMA", "Schema1"), ("NAME", "TAB1")] none ElemList.nil

/-- C2 as amended: the derived assetId is the underscore-joined
concatenation of the lower-cased database, legacy schema and table name,
where a component that is absent or empty is replaced by the token
unknown; in particular DB1, Schema1, TAB1 give db1_schema1_tab1 and a
missing database gives unknown_schema1_tab1. -/
theorem assetId_lowercase_join :
    (∀ (t : Elem) (td : TableDef), parse_table t = Except.ok td →
      td.asset_id =
        amendedAssetPart (Elem.attr t "DATABASE") ++ "_"
          ++ amendedAssetPart (Elem.attr t "SCHEMA") ++ "_"
          ++ amendedAssetPart (Elem.attr t "NAME"))
    ∧ (parse_table c2FullTable).map TableDef.asset_id =
        Except.ok "db1_schema1_tab1"
    ∧ (parse_table c2NoDbTable).map TableDef.asset_id =
        Except.ok "unknown_schema1_tab1" := by
  refine ⟨?_, rfl, rfl⟩
  intro t td h
  obtain ⟨cols, hc, rfl⟩ := parse_table_ok_inv h
  simp only [tableRecord, lowerOrUnknown_eq_amended]

/-- C2 witness: the amended derivation applied to a concrete table. -/
theorem assetId_lowercase_join_witness :
    (tableRecord c2FullTable []).asset_id =
      amendedAssetPart (Elem.attr c2FullTable "DATABASE") ++ "_"
        ++ amendedAssetPart (Elem.attr c2FullTable "SCHEMA") ++ "_"
        ++ amendedAssetPart (Elem.attr c2FullTable "NAME") :=
  assetId_lowercase_join.1 c2FullTable (tableRecord c2FullTable []) rfl

/-- The boolean rule exactly as claim C3 words it: true unless the text
is exactly the string 0. -/
def claimedBoolRule : Option String → Bool
  | some "0" => false
  | _ => true

/-- A concrete column node whose NULLABLE child holds the text 2. -/
def c3NullableTwoCol : Elem :=
  Elem.mk "COLUMN" [("NAME", "C")] none
    (elemsOf [Elem.mk "NULLABLE" [] (some "2") ElemList.nil])

/-- C3 counterexample: for NULLABLE text 2 the claimed rule, which treats
every text other than 0 as true, gives true, while the code, which only
treats the exact text 1 as true, derives false. -/
theorem nullable_only_zero_false_cex :
    truthyText (Elem.find c3NullableTwoCol "NULLABLE") = some "2"
    ∧ claimedBoolRule (some "2") = true
    ∧ (parseColumn c3NullableTwoCol).map ColumnDef.nullable = Except.ok false :=
  ⟨rfl, rfl, rfl⟩

/-- C3 as amended: nullable is true exactly when its element is absent,
its text is empty, or its text is exactly 1; keep_data is true exactly
when its element is absent or its text is exactly 1, a present element
with empty text giving false; every other text gives false for both. -/
theorem nullable_keep_data_one_true :
    (∀ (col : Elem) (cd : ColumnDef), parseColumn col = Except.ok cd →
      (cd.nullable = true ↔
        truthyText (Elem.find col "NULLABLE") = none ∨
          truthyText (Elem.find col "NULLABLE") = some "1"))
    ∧ (∀ (t : Elem) (td : TableDef), parse_table t = Except.ok td →
      (td.metadata.keep_data = true ↔
        Elem.find t "KEEP_DATA" = none ∨
          (Elem.find t "KEEP_DATA").bind Elem.textOf = some "1")) := by
  constructor
  · intro col cd h
    obtain ⟨p, s, hp, hs, rfl⟩ := parseColumn_ok_inv h
    simp only [columnRecord]
    cases hn : truthyText (Elem.find col "NULLABLE") with
    | none => simp
    | some v => simp [beq_iff_eq]
  · intro t td h
    obtain ⟨cols, hc, rfl⟩ := parse_table_ok_inv h
    simp only [tableRecord]
    cases hk : Elem.find t "KEEP_DATA" with
    | none => simp
    | some e => simp [beq_iff_eq]

/-- A concrete column node whose NULLABLE child holds the text 1. -/
def c3OneCol : Elem :=
  Elem.mk "COLUMN" [] none
    (elemsOf [Elem.mk "NULLABLE" [] (some "1") ElemList.nil])

/-- A concrete table node whose KEEP_DATA child holds the text 0. -/
def c3KeepTable : Elem :=
  Elem.mk "TABLE" [("NAME", "T")] none
    (elemsOf [Elem.mk "KEEP_DATA" [] (some "0") ElemList.nil])

/-- C3 witness: the amended boolean rule applied to concrete nodes. -/
theorem nullable_keep_data_one_true_witness :
    ((columnRecord c3OneCol 0 0).nullable = true ↔
      truthyText (Elem.find c3OneCol "NULLABLE") = none ∨
        truthyText (Elem.find c3OneCol "NULLABLE") = some "1")
    ∧ ((tableRecord c3KeepTable []).metadata.keep_data = true ↔
      Elem.find c3KeepTable "KEEP_DATA" = none ∨
        (Elem.find c3KeepTable "KEEP_DATA").bind Elem.textOf = some "1") :=
  ⟨nullable_keep_data_one_true.1 c3OneCol (columnRecord c3OneCol 0 0) rfl,
   nullable_keep_data_one_true.2 c3KeepTable (tableRecord c3KeepTable []) rfl⟩

/-- C5: a non-numeric precision or scale text in any column of any table
of the document aborts the whole parse with MalformedDocument; no asset
list is returned. -/
theorem malformed_int_aborts_whole_parse
    (root te tbl ce col : Elem) (s : String)
    (hte : Elem.findDeep root "TABLES" = some te)
    (htbl : tbl ∈ Elem.findall te "TABLE")
    (hce : Elem.find tbl "COLUMNS" = some ce)
    (hcol : col ∈ Elem.findall ce "COLUMN")
    (hbad : truthyText (Elem.find col "PRECISION") = some s ∨
            truthyText (Elem.find col "SCALE") = some s)
    (hnon : pyInt s = none) :
    ∃ msg, parse_all_tables root = Except.error (ParseError.malformedDocument msg) := by
  have hcolErr : ∃ e, parseColumn col = Except.error e := by
    rcases hbad with hb | hb
    · exact ⟨ParseError.malformedDocument s, by
        rw [parseColumn_eq, pyIntField_error hb hnon, bindE_error]⟩
    · cases hp : pyIntField (Elem.find col "PRECISION") with
      | error e => exact ⟨e, by rw [parseColumn_eq, hp, bindE_error]⟩
      | ok p =>
          exact ⟨ParseError.malformedDocument s, by
            rw [parseColumn_eq, hp, bindE_ok, pyIntField_error hb hnon, bindE_error]⟩
  obtain ⟨e1, hce1⟩ := hcolErr
  obtain ⟨e2, hcols⟩ := collectE_error_of_mem parseColumn hcol hce1
  have hTC : tableColumnsE tbl = Except.error e2 := by
    simp only [tableColumnsE, hce]
    exact hcols
  have htblErr : parse_table tbl = Except.error e2 := by
    rw [parse_table_eq, hTC, bindE_error]
  obtain ⟨e3, hall⟩ := collectE_error_of_mem parse_table htbl htblErr
  rw [parse_all_tables_eq_of_found hte, hall]
  cases e3 with
  | malformedDocument msg => exact ⟨msg, rfl⟩

/-- The column of the C5 witness document, with non-numeric precision. -/
def c5Col : Elem :=
  Elem.mk "COLUMN" [("NAME", "C1")] none
    (elemsOf [Elem.mk "PRECISION" [] (some "abc") ElemList.nil])

/-- The COLUMNS container of the C5 witness document. -/
def c5Ce : Elem := Elem.mk "COLUMNS" [] none (elemsOf [c5Col])

/-- The table of the C5 witness document. -/
def c5Tbl : Elem :=
  Elem.mk "TABLE" [("NAME", "T"), ("DATABASE", "D"), ("SCHEMA", "S")] none
    (elemsOf [c5Ce])

/-- The TABLES container of the C5 witness document. -/
def c5Te : Elem := Elem.mk "TABLES" [] none (elemsOf [c5Tbl])

/-- The root of the C5 witness document. -/
def c5Root : Elem := Elem.mk "ROOT" [] none (elemsOf [c5Te])

/-- C5 witness: a document whose only precision text is abc parses to the
MalformedDocument condition and to no asset list. -/
theorem malformed_int_aborts_whole_parse_witness :
    (∃ msg, parse_all_tables c5Root =
        Except.error (ParseError.malformedDocument msg))
    ∧ parse_all_tables c5Root =
        Except.error (ParseError.malformedDocument "abc") :=
  ⟨malformed_int_aborts_whole_parse c5Root c5Te c5Tbl c5Ce c5Col "abc" rfl
      (List.mem_singleton.mpr rfl) rfl (List.mem_singleton.mpr rfl)
      (Or.inl rfl) (by decide),
   rfl⟩

/-- C6: source-format inference is decided only by the extension of the
path, case-insensitively: .txt gives delimited, .bcp gives bcp, anything
else including a missing path gives csv; the format stored in a parsed
table is exactly the inference applied to the truthy FILE_PATH text. -/
theorem format_inference_by_extension :
    (∀ s : String, pyEndsWith (pyLower s) ".txt" = true →
        inferFormat (some s) = "delimited")
    ∧ (∀ s : String, pyEndsWith (pyLower s) ".txt" = false →
        pyEndsWith (pyLower s) ".bcp" = true → inferFormat (some s) = "bcp")
    ∧ (∀ s : String, pyEndsWith (pyLower s) ".txt" = false →
        pyEndsWith (pyLower s) ".bcp" = false → inferFormat (some s) = "csv")
    ∧ inferFormat none = "csv"
    ∧ (∀ (t : Elem) (td : TableDef), parse_table t = Except.ok td →
        td.source.format = inferFormat (truthyText (Elem.find t "FILE_PATH"))) := by
  refine ⟨?_, ?_, ?_, rfl, ?_⟩
  · intro s h
    simp [inferFormat, h]
  · intro s h1 h2
    simp [inferFormat, h1, h2]
  · intro s h1 h2
    simp [inferFormat, h1, h2]
  · intro t td h
    obtain ⟨cols, hc, rfl⟩ := parse_table_ok_inv h
    rfl

/-- A concrete table node whose FILE_PATH ends in an upper-case TXT. -/
def c6Table : Elem :=
  Elem.mk "TABLE" [("NAME", "T")] none
    (elemsOf [Elem.mk "FILE_PATH" [] (some "data/TAB1.TXT") ElemList.nil])

/-- C6 witness: the inference rules applied to concrete paths and a
concrete table. -/
theorem format_inference_by_extension_witness :
    inferFormat (some "data/TAB1.TXT") = "delimited"
    ∧ inferFormat (some "x.BCP") = "bcp"
    ∧ inferFormat (some "x.csv") = "csv"
    ∧ (tableRecord c6Table []).source.format =
        inferFormat (truthyText (Elem.find c6Table "FILE_PATH")) :=
  ⟨format_inference_by_extension.1 "data/TAB1.TXT" (by decide),
   format_inference_by_extension.2.1 "x.BCP" (by decide) (by decide),
   format_inference_by_extension.2.2.1 "x.csv" (by decide) (by decide),
   format_inference_by_extension.2.2.2.2 c6Table (tableRecord c6Table []) rfl⟩

/-- C7: parsing preserves document order — the asset list has one entry
per TABLE child of the first TABLES container, index by index in document
order, and the column list of each asset has one entry per COLUMN child of
the COLUMNS container of its table, index by index in document order. -/
theorem document_order_preserved :
    (∀ (root te : Elem) (assets : List TableDef),
      Elem.findDeep root "TABLES" = some te →
      parse_all_tables root = Except.ok assets →
        assets.length = (Elem.findall te "TABLE").length ∧
        ∀ (i : Nat) (h1 : i < (Elem.findall te "TABLE").length)
          (h2 : i < assets.length),
          parse_table ((Elem.findall te "TABLE").get ⟨i, h1⟩) =
            Except.ok (assets.get ⟨i, h2⟩))
    ∧ (∀ (t ce : Elem) (td : TableDef),
        parse_table t = Except.ok td →
        Elem.find t "COLUMNS" = some ce →
          td.columns.length = (Elem.findall ce "COLUMN").length ∧
          ∀ (j : Nat) (h1 : j < (Elem.findall ce "COLUMN").length)
            (h2 : j < td.columns.length),
            parseColumn ((Elem.findall ce "COLUMN").get ⟨j, h1⟩) =
              Except.ok (td.columns.get ⟨j, h2⟩)) := by
  constructor
  · intro root te assets hte hok
    rw [parse_all_tables_eq_of_found hte] at hok
    exact collectE_ok_spec parse_table _ assets hok
  · intro t ce td h hce
    obtain ⟨cols, hc, rfl⟩ := parse_table_ok_inv h
    have hcols : collectE parseColumn (Elem.findall ce "COLUMN") = Except.ok cols := by
      simpa only [tableColumnsE, hce] using hc
    exact collectE_ok_spec parseColumn _ cols hcols

/-- First column of the first C7 witness table. -/
def c7ColA : Elem := Elem.mk "COLUMN" [("NAME", "A")] none ElemList.nil

/-- Second column of the first C7 witness table. -/
def c7ColB : Elem := Elem.mk "COLUMN" [("NAME", "B")] none ElemList.nil

/-- COLUMNS container of the first C7 witness table. -/
def c7Cols : Elem := Elem.mk "COLUMNS" [] none (elemsOf [c7ColA, c7ColB])

/-- First C7 witness table. -/
def c7T1 : Elem := Elem.mk "TABLE" [("NAME", "T1")] none (elemsOf [c7Cols])

/-- Second C7 witness table. -/
def c7T2 : Elem := Elem.mk "TABLE" [("NAME", "T2")] none ElemList.nil

/-- TABLES container of the C7 witness document. -/
def c7Te : Elem := Elem.mk "TABLES" [] none (elemsOf [c7T1, c7T2])

/-- Root of the C7 witness document. -/
def c7Root : Elem := Elem.mk "ROOT" [] none (elemsOf [c7Te])

/-- The asset list the parser derives for the C7 witness document. -/
def c7Assets : List TableDef :=
  [tableRecord c7T1 [columnRecord c7ColA 0 0, columnRecord c7ColB 0 0],
   tableRecord c7T2 []]

/-- C7 witness: the order-preservation theorem applied to a concrete
two-table document whose first table has two columns. -/
theorem document_order_preserved_witness :
    parse_all_tables c7Root = Except.ok c7Assets
    ∧ c7Assets.length = (Elem.findall c7Te "TABLE").length
    ∧ (tableRecord c7T1 [columnRecord c7ColA 0 0, columnRecord c7ColB 0 0]).columns.length
        = (Elem.findall c7Cols "COLUMN").length :=
  ⟨rfl,
   (document_order_preserved.1 c7Root c7Te c7Assets rfl rfl).1,
   (document_order_preserved.2 c7T1 c7Cols
      (tableRecord c7T1 [columnRecord c7ColA 0 0, columnRecord c7ColB 0 0])
      rfl rfl).1⟩

/-- A left factor of positive length makes an append of positive length. -/
theorem length_append_left_pos {a : String} (b : String)
    (h : 0 < a.length) : 0 < (a ++ b).length := by
  rw [String.length_append]
  omega

/-- C8: mapType is total and pure — for every input it returns a
non-empty string, and identical inputs always give identical outputs. -/
theorem mapType_total_pure :
    (∀ (ty : String) (p s : Int), 0 < (map_data_type ty p s).length)
    ∧ (∀ (ty ty2 : String) (p p2 s s2 : Int), ty = ty2 → p = p2 → s = s2 →
        map_data_type ty p s = map_data_type ty2 p2 s2) := by
  constructor
  · intro ty p s
    have hrw : map_data_type ty p s =
        ((Option.map (fun kv => kv.2)
            ((type_mapping p s).find? (fun kv => kv.1 == pyUpper ty))).getD
          "VARCHAR(255)") := rfl
    rw [hrw]
    cases hf : (type_mapping p s).find? (fun kv => kv.1 == pyUpper ty) with
    | none => decide
    | some kv =>
        simp only [Option.map_some', Option.getD_some]
        have hmem := List.mem_of_find?_eq_some hf
        simp only [type_mapping, List.mem_cons, List.not_mem_nil, or_false] at hmem
        rcases hmem with rfl | rfl | rfl | rfl | rfl | rfl | rfl | rfl | rfl |
          rfl | rfl | rfl | rfl | rfl | rfl | rfl | rfl | rfl <;>
          dsimp only <;> try split
        all_goals repeat apply length_append_left_pos
        all_goals decide
  · intro ty ty2 p p2 s s2 h1 h2 h3
    subst h1
    subst h2
    subst h3
    rfl

/-- C8 witness: totality and purity at concrete inputs. -/
theorem mapType_total_pure_witness :
    0 < (map_data_type "DECIMAL" 10 2).length
    ∧ map_data_type "UNKNOWNTYPE" 1 2 = map_data_type "UNKNOWNTYPE" 1 2 :=
  ⟨mapType_total_pure.1 "DECIMAL" 10 2,
   mapType_total_pure.2 "UNKNOWNTYPE" "UNKNOWNTYPE" 1 1 2 2 rfl rfl rfl⟩

/-- C9: each documented SourceSpec default is applied exactly when its
child element is entirely absent; a present element with no text makes
the field null rather than the default. -/
theorem source_defaults_only_when_absent (t : Elem) (td : TableDef)
    (h : parse_table t = Except.ok td) :
    ((Elem.find t "FILE_PATH" = none → td.source.file_path = some "")
      ∧ (∀ e, Elem.find t "FILE_PATH" = some e → Elem.textOf e = none →
          td.source.file_path = none))
    ∧ ((Elem.find t "SCT_PATH" = none → td.source.sct_path = some "")
      ∧ (∀ e, Elem.find t "SCT_PATH" = some e → Elem.textOf e = none →
          td.source.sct_path = none))
    ∧ ((Elem.find t "COLUMN_SEPARATOR" = none → td.source.column_separator = some ",")
      ∧ (∀ e, Elem.find t "COLUMN_SEPARATOR" = some e → Elem.textOf e = none →
          td.source.column_separator = none))
    ∧ ((Elem.find t "ROW_SEPARATOR" = none → td.source.row_separator = some "\\n")
      ∧ (∀ e, Elem.find t "ROW_SEPARATOR" = some e → Elem.textOf e = none →
          td.source.row_separator = none))
    ∧ ((Elem.find t "NULL_INDICATOR" = none → td.source.null_indicator = some "NULL")
      ∧ (∀ e, Elem.find t "NULL_INDICATOR" = some e → Elem.textOf e = none →
          td.source.null_indicator = none)) := by
  obtain ⟨cols, hc, rfl⟩ := parse_table_ok_inv h
  refine ⟨⟨?_, ?_⟩, ⟨?_, ?_⟩, ⟨?_, ?_⟩, ⟨?_, ?_⟩, ⟨?_, ?_⟩⟩ <;>
    first
      | (intro he
         simp [tableRecord, textOrDefault, he])
      | (intro e he ht
         simp [tableRecord, textOrDefault, he, ht])

/-- The present-but-empty FILE_PATH child of the C9 witness table. -/
def c9Fp : Elem := Elem.mk "FILE_PATH" [] none ElemList.nil

/-- The C9 witness table: FILE_PATH present with no text, the other
override children absent. -/
def c9Table : Elem := Elem.mk "TABLE" [("NAME", "T")] none (elemsOf [c9Fp])

/-- C9 witness: a present-but-empty FILE_PATH gives a null field while
the absent ROW_SEPARATOR gives its documented default. -/
theorem source_defaults_only_when_absent_witness :
    (tableRecord c9Table []).source.file_path = none
    ∧ (tableRecord c9Table []).source.row_separator = some "\\n" :=
  ⟨(source_defaults_only_when_absent c9Table (tableRecord c9Table []) rfl).1.2
      c9Fp rfl rfl,
   (source_defaults_only_when_absent c9Table (tableRecord c9Table []) rfl).2.2.2.1.1
      rfl⟩

/-- C10: a column whose TYPE child is absent or blank and whose PRECISION
child is absent gets target type VARCHAR(0): the type defaults to VARCHAR
and the default precision 0 is substituted into the length parameter. -/
theorem default_type_precision_varchar0 (col : Elem) (cd : ColumnDef)
    (h : parseColumn col = Except.ok cd)
    (hty : truthyText (Elem.find col "TYPE") = none)
    (hp : Elem.find col "PRECISION" = none) :
    cd.wxd_type = "VARCHAR(0)" := by
  obtain ⟨p, s, hpf, hs, rfl⟩ := parseColumn_ok_inv h
  rw [hp, pyIntField_none] at hpf
  cases hpf
  simp only [columnRecord, hty]
  rfl

/-- The C10 witness column: no TYPE, PRECISION or SCALE children. -/
def c10Col : Elem := Elem.mk "COLUMN" [("NAME", "X")] none ElemList.nil

/-- C10 witness: the default target type of a bare column node. -/
theorem default_type_precision_varchar0_witness :
    (columnRecord c10Col 0 0).wxd_type = "VARCHAR(0)" :=
  default_type_precision_varchar0 c10Col (columnRecord c10Col 0 0) rfl rfl rfl

end WxdIntegration
